import Mathlib

/-!
Verification development for the geopib pipeline: `index.py` computes
per-municipality zonal temperature means from twelve monthly rasters
(scale detection, plausibility filtering, nan-aware annual mean) and
`stats.py` derives summary statistics (rankings, bins, IQR outliers)
from the resulting table.

Numeric values are modelled over `ℚ`; the floating NaN convention of the
source is modelled by an explicit `Option` missing marker, and raster
cell contents by `FVal` (finite value or non-finite).
-/

namespace Geopib

/-- A raster cell value as held in the float array read by `index.py`:
either non-finite (NaN or an infinity, rejected by `np.isfinite`) or a
finite number, modelled as a rational. -/
inductive FVal where
  | nonfinite : FVal
  | val (q : ℚ) : FVal
deriving DecidableEq, Repr

/-- Validity mask of `index.py` (`np.isfinite(data)` when there is no
nodata sentinel, `np.isfinite(data) & (data != nodata)` otherwise):
returns the cell's value exactly when the cell is valid. -/
def isValidCell (nodata : Option ℚ) : FVal → Option ℚ
  | .nonfinite => none
  | .val q =>
    match nodata with
    | none => some q
    | some nd => if q = nd then none else some q

/-- Maximum of a list of rationals, `none` on the empty list
(`np.max(data[valid])` guarded by `np.any(valid)`). -/
def listMax : List ℚ → Option ℚ
  | [] => none
  | x :: xs =>
    match listMax xs with
    | none => some x
    | some m => some (max x m)

/-- Minimum of a list of rationals, `none` on the empty list. -/
def listMin : List ℚ → Option ℚ
  | [] => none
  | x :: xs =>
    match listMin xs with
    | none => some x
    | some m => some (min x m)

/-- The function `_detect_scale_from_array` of `index.py`: the valid
cells are the finite ones different from the nodata sentinel; with no
valid cell the scale defaults to `1.0`, otherwise it is `0.1` when the
maximum valid value exceeds `80.0` and `1.0` otherwise. -/
def detect_scale_from_array (data : List FVal) (nodata : Option ℚ) : ℚ :=
  match listMax (data.filterMap (isValidCell nodata)) with
  | none => 1
  | some vmax => if vmax > 80 then 1/10 else 1

/-- Lower plausibility bound `MIN_TEMP_C = -20.0` of `index.py`. -/
def MIN_TEMP_C : ℚ := -20

/-- Upper plausibility bound `MAX_TEMP_C = 50.0` of `index.py`. -/
def MAX_TEMP_C : ℚ := 50

/-- The plausibility test applied to each scaled zonal mean `v_c` in the
`linha` loop of `index.py`: `if v_c < MIN_TEMP_C or v_c > MAX_TEMP_C`
the entry becomes NaN (here `none`), otherwise `v_c` is kept. -/
def plausibilityFilter (v : ℚ) : Option ℚ :=
  if v < MIN_TEMP_C ∨ v > MAX_TEMP_C then none else some v

/-- A polygon, reduced to what the zonal aggregation consumes: the
containment test for a raster cell center. -/
def Polygon : Type := ℚ × ℚ → Bool

/-- A single-month raster: cell centers with their stored values, plus
the optional nodata sentinel of the band. -/
structure Raster where
  cells : List ((ℚ × ℚ) × FVal)
  nodata : Option ℚ

/-- Cell values of a raster in array order (the `data` array of
`index.py`, forgetting cell positions). -/
def rasterValues (r : Raster) : List FVal := r.cells.map Prod.snd

/-- Valid values of a raster: finite and different from nodata. -/
def rasterValidValues (r : Raster) : List ℚ :=
  (rasterValues r).filterMap (isValidCell r.nodata)

/-- Valid values of the raster cells whose center lies inside the
polygon. -/
def polyValidValues (p : Polygon) (r : Raster) : List ℚ :=
  r.cells.filterMap (fun c => if p c.1 then isValidCell r.nodata c.2 else none)

/-- Modelled from the spec: the zonal mean produced by the external
`rasterstats.zonal_stats(municipios, data, affine=…, nodata=…,
stats="mean")` call of `index.py`, whose implementation is not part of
this repository. Per the spec it is, for each polygon, the arithmetic
mean of all grid cells whose center falls inside the polygon, excluding
cells equal to the nodata sentinel and excluding non-finite values, and
`missing` (Python `None`, here `none`) when no such cell exists. -/
def zonalMean (p : Polygon) (r : Raster) : Option ℚ :=
  if polyValidValues p r = [] then none
  else some ((polyValidValues p r).sum / ((polyValidValues p r).length : ℚ))

/-- One step of the `linha` loop of `index.py`: a missing zonal mean
(`z["mean"] is None`) stays missing (NaN), otherwise the mean is scaled
to Celsius and passed through the plausibility test. -/
def processValue (scale : ℚ) : Option ℚ → Option ℚ
  | none => none
  | some v => plausibilityFilter (v * scale)

/-- The row `linha` built for one raster in `index.py`: the zonal means
of all municipalities, each scaled by the same `scale_to_c` and
plausibility-filtered. -/
def linha (scale : ℚ) (polys : List Polygon) (r : Raster) : List (Option ℚ) :=
  (polys.map (fun p => zonalMean p r)).map (processValue scale)

/-- The sequence of values held by the mutable `scale_to_c` variable at
the start of each iteration of the raster loop of `index.py`: it starts
as `args.escala`, is set by `_detect_scale_from_array` on the first
raster for which it is still `None`, and is never recomputed
afterwards. -/
def scalesUsed : Option ℚ → List Raster → List ℚ
  | _, [] => []
  | some s, _ :: rs => s :: scalesUsed (some s) rs
  | none, r :: rs =>
    (detect_scale_from_array (rasterValues r) r.nodata)
      :: scalesUsed (some (detect_scale_from_array (rasterValues r) r.nodata)) rs

/-- The raster loop of `index.py`, threading the mutable `scale_to_c`
explicitly: one `linha` row per raster. -/
def statsMensaisGo (polys : List Polygon) : Option ℚ → List Raster → List (List (Option ℚ))
  | _, [] => []
  | some s, r :: rs => linha s polys r :: statsMensaisGo polys (some s) rs
  | none, r :: rs =>
    linha (detect_scale_from_array (rasterValues r) r.nodata) polys r
      :: statsMensaisGo polys (some (detect_scale_from_array (rasterValues r) r.nodata)) rs

/-- The `stats_mensais` table of `index.py` (one row per raster, one
column per municipality), starting from `scale_to_c = args.escala`. -/
def stats_mensais (escala : Option ℚ) (polys : List Polygon) (rasters : List Raster) :
    List (List (Option ℚ)) :=
  statsMensaisGo polys escala rasters

/-- The `np.nanmean` of one column: the mean of the non-missing entries,
`none` (NaN) when every entry is missing. -/
def nanmean (vs : List (Option ℚ)) : Option ℚ :=
  if vs.filterMap id = [] then none
  else some ((vs.filterMap id).sum / ((vs.filterMap id).length : ℚ))

/-- Column `j` of the monthly table (the slice reduced by
`np.nanmean(stats_mensais, axis=0)` for municipality `j`). -/
def column (j : ℕ) (table : List (List (Option ℚ))) : List (Option ℚ) :=
  table.filterMap (fun row => row[j]?)

/-- The `temp_media_anual` array of `index.py`:
`np.nanmean(stats_mensais, axis=0)`, one optionally-missing annual mean
per municipality. -/
def temp_media_anual (npolys : ℕ) (table : List (List (Option ℚ))) : List (Option ℚ) :=
  (List.range npolys).map (fun j => nanmean (column j table))

/-- The bin labels of `stats.py`. -/
def faixaLabels : List String :=
  ["< 15°C", "15–18°C", "18–21°C", "21–24°C", "24–27°C", "> 27°C"]

/-- The binning of `stats.py`:
`pd.cut(v, bins=[-50, 15, 18, 21, 24, 27, 50], labels=…,
include_lowest=True)`. Intervals are left-open right-closed, the lowest
edge is included, and a value outside `[-50, 50]` falls in no bin
(pandas yields NaN for it). The result is the bin index into
`faixaLabels`. -/
def binOf (v : ℚ) : Option ℕ :=
  if -50 ≤ v ∧ v ≤ 15 then some 0
  else if 15 < v ∧ v ≤ 18 then some 1
  else if 18 < v ∧ v ≤ 21 then some 2
  else if 21 < v ∧ v ≤ 24 then some 3
  else if 24 < v ∧ v ≤ 27 then some 4
  else if 27 < v ∧ v ≤ 50 then some 5
  else none

/-- The `dist` table of `stats.py`: `value_counts().sort_index()` on the
categorical produced by `pd.cut` — for each of the six bins, in label
order, the number of values falling in it (values binned to NaN are
dropped by `value_counts`; every category appears, possibly with count
0). -/
def distCounts (vals : List ℚ) : List ℕ :=
  (List.range 6).map (fun b => (vals.filterMap binOf).count b)

/-- Linear-interpolation quantile on an ascending-sorted list, the
default `interpolation='linear'` of `pandas.Series.quantile`: with
`h = p * (n - 1)`, the result is `x[⌊h⌋] + (h - ⌊h⌋) * (x[⌊h⌋+1] - x[⌊h⌋])`. -/
def quantileSorted (s : List ℚ) (p : ℚ) : ℚ :=
  let h : ℚ := p * ((s.length : ℚ) - 1)
  let lo : ℤ := h.floor
  let x0 := s.getD lo.toNat 0
  let x1 := s.getD (lo.toNat + 1) x0
  x0 + (h - (lo : ℚ)) * (x1 - x0)

/-- The quantile of `stats.py` (`df["temp_media_anual"].quantile(p)`):
sort ascending, then interpolate linearly. -/
def quantile (l : List ℚ) (p : ℚ) : ℚ :=
  quantileSorted (l.insertionSort (· ≤ ·)) p

/-- The `lim_inf` bound of `stats.py`: `q1 - 1.5 * iqr` with `q1`/`q3`
the 25th/75th percentiles. -/
def lim_inf (vals : List ℚ) : ℚ :=
  quantile vals (1/4) - 3/2 * (quantile vals (3/4) - quantile vals (1/4))

/-- The `lim_sup` bound of `stats.py`: `q3 + 1.5 * iqr`. -/
def lim_sup (vals : List ℚ) : ℚ :=
  quantile vals (3/4) + 3/2 * (quantile vals (3/4) - quantile vals (1/4))

/-- The `outliers` selection of `stats.py`, reduced to the value column:
keep the values strictly below `lim_inf` or strictly above `lim_sup`,
then sort ascending by value (`.sort_values("temp_media_anual")`). -/
def outlierValues (vals : List ℚ) : List ℚ :=
  List.insertionSort (· ≤ ·)
    (vals.filter (fun v => decide (v < lim_inf vals ∨ v > lim_sup vals)))

/-- A raster file as seen by the selection logic of `index.py`: a path
(list of characters) and the raster it holds. -/
structure RFile where
  name : List Char
  raster : Raster

/-- Lowercasing of a path (`path.lower()`). -/
def lowerL (l : List Char) : List Char := l.map Char.toLower

/-- The part of a path after the last `/` (`os.path.basename`). -/
def basename (p : List Char) : List Char :=
  (p.reverse.takeWhile (fun c => c ≠ '/')).reverse

/-- Substring test (Python `pat in s`). -/
def hasSub (pat : List Char) : List Char → Bool
  | [] => pat.isEmpty
  | c :: rest => pat.isPrefixOf (c :: rest) || hasSub pat rest

/-- Two-digit month token (`f"{month:02d}"`), faithful for `0 ≤ m ≤ 99`. -/
def twoDigit (m : ℕ) : List Char :=
  if m < 10 then ['0', Char.ofNat (48 + m)]
  else [Char.ofNat (48 + m / 10), Char.ofNat (48 + m % 10)]

/-- The filename pattern `f"tavg_{mm}"`. -/
def tavgPat (m : ℕ) : List Char := "tavg_".toList ++ twoDigit m

/-- The filename suffix `f"_{mm}.tif"`. -/
def suffixPat (m : ℕ) : List Char := '_' :: (twoDigit m ++ ".tif".toList)

/-- The function `_pick_raster_for_month` of `index.py`: first file whose
basename contains `tavg_{mm}`, else first file whose lowercased path ends
in `_{mm}.tif`, else the file at position `month - 1` when in range,
else a `RuntimeError`. -/
def pick_raster_for_month (rasters : List RFile) (month : ℕ) : Except String (List RFile) :=
  match rasters.find? (fun f => hasSub (tavgPat month) (basename f.name)) with
  | some f => .ok [f]
  | none =>
    match rasters.find? (fun f => (suffixPat month).isSuffixOf (lowerL f.name)) with
    | some f => .ok [f]
    | none =>
      if h : 1 ≤ month ∧ month ≤ rasters.length then
        .ok [rasters.get ⟨month - 1, by omega⟩]
      else
        .error "Não encontrei raster para o mês."

/-- The raster selection block of `index.py` (section 2): an empty glob
result is a `RuntimeError`; with `--mes` the month's raster is picked;
without it, any count other than 12 is a `RuntimeError`. -/
def selectRasters (files : List RFile) (mes : Option ℕ) : Except String (List RFile) :=
  if files.length = 0 then .error "Nenhum raster encontrado com o padrão."
  else
    match mes with
    | some m => pick_raster_for_month files m
    | none =>
      if files.length ≠ 12 then .error "Esperado 12 rasters (1 por mês)."
      else .ok files

/-- The recognized command-line options of `index.py` that affect the
computed table. -/
structure Args where
  mes : Option ℕ
  escala : Option ℚ
  limite : Option ℤ

/-- The `--limite` handling of `index.py`: a non-positive limit is a
`ValueError`, otherwise the municipality list is truncated to its first
`n` entries. -/
def applyLimite (limite : Option ℤ) (polys : List Polygon) : Except String (List Polygon) :=
  match limite with
  | none => .ok polys
  | some n =>
    if n ≤ 0 then .error "--limite deve ser um inteiro positivo."
    else .ok (polys.take n.toNat)

/-- The whole `index.py` run, as a function from configuration,
municipality polygons and globbed raster files to either a fatal error
(raised before any zonal aggregation) or the final `temp_media_anual`
column that gets written to the output CSV. -/
def runPipeline (args : Args) (polys : List Polygon) (files : List RFile) :
    Except String (List (Option ℚ)) :=
  match applyLimite args.limite polys with
  | .error e => .error e
  | .ok ps =>
    match selectRasters files args.mes with
    | .error e => .error e
    | .ok sel =>
      .ok (temp_media_anual ps.length (stats_mensais args.escala ps (sel.map RFile.raster)))

/-! Helper lemmas. -/

theorem listMax_nil : listMax [] = none := rfl

/-- Characterization of the values `pd.cut` leaves unbinned: exactly
those outside `[-50, 50]`. -/
theorem binOf_eq_none_iff (v : ℚ) : binOf v = none ↔ (v < -50 ∨ 50 < v) := by
  unfold binOf
  split_ifs with h1 h2 h3 h4 h5 h6 <;> push_neg at *
  · simp only [reduceCtorEq, false_iff]
    push_neg
    exact ⟨h1.1, by linarith [h1.2]⟩
  · simp only [reduceCtorEq, false_iff]
    push_neg
    exact ⟨by linarith [h2.1], by linarith [h2.2]⟩
  · simp only [reduceCtorEq, false_iff]
    push_neg
    exact ⟨by linarith [h3.1], by linarith [h3.2]⟩
  · simp only [reduceCtorEq, false_iff]
    push_neg
    exact ⟨by linarith [h4.1], by linarith [h4.2]⟩
  · simp only [reduceCtorEq, false_iff]
    push_neg
    exact ⟨by linarith [h5.1], by linarith [h5.2]⟩
  · simp only [reduceCtorEq, false_iff]
    push_neg
    exact ⟨by linarith [h6.1], by linarith [h6.2]⟩
  · simp only [true_iff]
    rcases lt_or_le v (-50) with h | h
    · exact Or.inl h
    · have p1 : 15 < v := h1 h
      have p2 : 18 < v := h2 p1
      have p3 : 21 < v := h3 p2
      have p4 : 24 < v := h4 p3
      have p5 : 27 < v := h5 p4
      exact Or.inr (h6 p5)

/-! Claim theorems. -/

/-- C5: `_detect_scale_from_array` is a deterministic Lean function of
the cell array and the nodata sentinel; it returns `1.0` when no valid
(finite, non-nodata) cell exists, `0.1` when the maximum valid value
exceeds `80`, and `1.0` otherwise. -/
theorem claim_C5 (data : List FVal) (nodata : Option ℚ) :
    (data.filterMap (isValidCell nodata) = [] → detect_scale_from_array data nodata = 1) ∧
    (∀ M, listMax (data.filterMap (isValidCell nodata)) = some M →
      ((80 < M → detect_scale_from_array data nodata = 1/10) ∧
       (M ≤ 80 → detect_scale_from_array data nodata = 1))) := by
  refine ⟨fun h => ?_, fun M hM => ⟨fun hgt => ?_, fun hle => ?_⟩⟩
  · unfold detect_scale_from_array
    rw [h, listMax_nil]
  · unfold detect_scale_from_array
    rw [hM]
    simp [hgt]
  · unfold detect_scale_from_array
    rw [hM]
    simp [not_lt.2 hle]

/-- Witness for C5 on concrete arrays: maximum valid value 95 gives the
factor 0.1, maximum 75 gives 1.0, and an empty array gives 1.0. -/
theorem claim_C5_witness :
    detect_scale_from_array [FVal.val 95] none = 1/10 ∧
    detect_scale_from_array [FVal.val 75] none = 1 ∧
    detect_scale_from_array [] none = 1 :=
  ⟨((claim_C5 [FVal.val 95] none).2 95 (by decide)).1 (by norm_num),
   ((claim_C5 [FVal.val 75] none).2 75 (by decide)).2 (by norm_num),
   (claim_C5 [] none).1 rfl⟩

/-- C3: the plausibility filter keeps a scaled value `v` unchanged when
`-20 ≤ v ≤ 50` (boundaries included) and turns it into the missing
marker otherwise (no clamping); in the `linha` loop it is applied to the
already-scaled value (`v * scale`), independently for every polygon of
the month's row, which is produced before the temporal aggregation
consumes it. -/
theorem claim_C3 (v s : ℚ) (polys : List Polygon) (r : Raster) :
    (MIN_TEMP_C ≤ v ∧ v ≤ MAX_TEMP_C → plausibilityFilter v = some v) ∧
    ((v < MIN_TEMP_C ∨ v > MAX_TEMP_C) → plausibilityFilter v = none) ∧
    (processValue s (some v) = plausibilityFilter (v * s)) ∧
    (linha s polys r = polys.map (fun p => processValue s (zonalMean p r))) := by
  refine ⟨fun h => ?_, fun h => ?_, rfl, ?_⟩
  · unfold plausibilityFilter
    rw [if_neg]
    push_neg
    exact ⟨h.1, h.2⟩
  · exact if_pos h
  · unfold linha
    rw [List.map_map]
    rfl

/-- Witness for C3: both boundary values pass through unchanged and an
out-of-range value becomes missing. -/
theorem claim_C3_witness :
    plausibilityFilter 50 = some 50 ∧ plausibilityFilter (-20) = some (-20) ∧
    plausibilityFilter (101/2) = none :=
  ⟨(claim_C3 50 1 [] ⟨[], none⟩).1 (by norm_num [MIN_TEMP_C, MAX_TEMP_C]),
   (claim_C3 (-20) 1 [] ⟨[], none⟩).1 (by norm_num [MIN_TEMP_C, MAX_TEMP_C]),
   (claim_C3 (101/2) 1 [] ⟨[], none⟩).2.1 (by norm_num [MIN_TEMP_C, MAX_TEMP_C])⟩

/-- C10: the bins are left-open right-closed over the edges
`[-50, 15, 18, 21, 24, 27, 50]` with the lowest edge included: every
interior edge belongs to the lower bin (15 falls in bin 0, labelled
"< 15°C", and so on), `-50` falls in the lowest bin, and a value outside
`[-50, 50]` is assigned to no bin at all. -/
theorem claim_C10 (v : ℚ) :
    (binOf v = none ↔ (v < -50 ∨ 50 < v)) ∧
    binOf (-50) = some 0 ∧ binOf 15 = some 0 ∧ binOf 18 = some 1 ∧
    binOf 21 = some 2 ∧ binOf 24 = some 3 ∧ binOf 27 = some 4 ∧
    binOf 50 = some 5 := by
  refine ⟨binOf_eq_none_iff v, ?_, ?_, ?_, ?_, ?_, ?_, ?_⟩ <;> decide

/-- Every bin index produced by `binOf` is one of the six bins. -/
theorem binOf_lt_six {v : ℚ} {k : ℕ} (h : binOf v = some k) : k < 6 := by
  unfold binOf at h
  split_ifs at h
  all_goals injection h with h2
  all_goals omega

theorem sum_map_add_nat {α : Type} (l : List α) (f g : α → ℕ) :
    (l.map (fun x => f x + g x)).sum = (l.map f).sum + (l.map g).sum := by
  induction l with
  | nil => rfl
  | cons x xs ih =>
    simp only [List.map_cons, List.sum_cons, ih]
    omega

theorem sum_range_ite (x n : ℕ) :
    ((List.range n).map (fun b => if b = x then 1 else 0)).sum = if x < n then 1 else 0 := by
  induction n with
  | zero => simp
  | succ n ih =>
    rw [List.range_succ, List.map_append, List.sum_append, ih]
    simp only [List.map_cons, List.map_nil, List.sum_cons, List.sum_nil]
    split_ifs <;> omega

/-- Values outside the overall bin range are exactly the ones `binOf`
sends to no bin. -/
theorem binOf_isSome_iff (v : ℚ) : (binOf v).isSome = true ↔ (-50 ≤ v ∧ v ≤ 50) := by
  rw [Option.isSome_iff_ne_none, ne_eq, binOf_eq_none_iff]
  push_neg
  rfl

/-- The bin counts sum to the number of records that fall inside the
overall bin range `[-50, 50]`. -/
theorem distCounts_sum (vals : List ℚ) :
    (distCounts vals).sum = vals.countP (fun v => decide (-50 ≤ v ∧ v ≤ 50)) := by
  induction vals with
  | nil => rfl
  | cons v vs ih =>
    unfold distCounts at *
    rw [List.countP_cons]
    cases hb : binOf v with
    | none =>
      have hfm : (v :: vs).filterMap binOf = vs.filterMap binOf := by
        simp [List.filterMap_cons, hb]
      have hv : ¬(-50 ≤ v ∧ v ≤ 50) := by
        intro hc
        have := (binOf_isSome_iff v).2 hc
        rw [hb] at this
        cases this
      rw [hfm, ih]
      simp [hv]
    | some k =>
      have hk : k < 6 := binOf_lt_six hb
      have hfm : (v :: vs).filterMap binOf = k :: vs.filterMap binOf := by
        simp [List.filterMap_cons, hb]
      have hv : -50 ≤ v ∧ v ≤ 50 := by
        apply (binOf_isSome_iff v).1
        rw [hb]
        rfl
      rw [hfm]
      have hcnt : ((List.range 6).map fun b => (k :: vs.filterMap binOf).count b)
          = (List.range 6).map fun b => (vs.filterMap binOf).count b + if b = k then 1 else 0 := by
        apply List.map_congr_left
        intro b _
        rw [List.count_cons]
        simp only [beq_iff_eq]
        split_ifs <;> first | rfl | (exfalso; omega)
      rw [hcnt, sum_map_add_nat, sum_range_ite, ih]
      simp [hv, hk]

/-- C7 (amended): the binned-distribution counts sum exactly to the
number of non-missing records whose value lies within the overall bin
range `[-50, 50]` — not to the full non-missing count, because `pd.cut`
bins a value outside the fixed edges to NaN and `value_counts` then
drops it — and every one of the six fixed bins appears in the output
even when its count is 0. -/
theorem claim_C7 (vals : List ℚ) :
    (distCounts vals).length = faixaLabels.length ∧
    (distCounts vals).sum = vals.countP (fun v => decide (-50 ≤ v ∧ v ≤ 50)) :=
  ⟨by simp [distCounts, faixaLabels], distCounts_sum vals⟩

/-- Counterexample to C7 as stated: the single record `60` is
non-missing, yet every bin count is zero, so the counts sum to 0, not to
the number of non-missing records (1). -/
theorem claim_C7_cex : ¬ ((distCounts [60]).sum = ([(60 : ℚ)]).length) := by decide

/-- C4: the temporal aggregator (`np.nanmean(stats_mensais, axis=0)`)
returns the missing marker when every month is missing, otherwise the
arithmetic mean of the non-missing monthly values alone; a missing month
is skipped, never zero-filled or an error, and the annual column is this
nan-aware mean applied to each municipality's column. -/
theorem claim_C4 (vs : List (Option ℚ)) (npolys : ℕ) (table : List (List (Option ℚ))) :
    ((∀ o ∈ vs, o = none) → nanmean vs = none) ∧
    (vs.filterMap id ≠ [] →
      nanmean vs = some ((vs.filterMap id).sum / ((vs.filterMap id).length : ℚ))) ∧
    (nanmean (none :: vs) = nanmean vs) ∧
    (temp_media_anual npolys table =
      (List.range npolys).map (fun j => nanmean (column j table))) := by
  refine ⟨fun h => ?_, fun h => ?_, ?_, rfl⟩
  · have hnil : vs.filterMap id = [] := by
      rw [List.filterMap_eq_nil_iff]
      intro o ho
      rw [h o ho]
      rfl
    unfold nanmean
    rw [if_pos hnil]
  · unfold nanmean
    rw [if_neg h]
  · unfold nanmean
    simp [List.filterMap_cons]

/-- A twelve-month row with exactly three missing entries: C4 applied to
it yields the mean of the nine present values. -/
def vsC4 : List (Option ℚ) :=
  [some 20, some 21, some 19, none, some 22, none, some 23, some 24, none,
   some 25, some 26, some 27]

/-- Witness for C4: twelve monthly values with exactly 3 missing give
the mean of the other 9 (here 207 / 9 = 23). -/
theorem claim_C4_witness : nanmean vsC4 = some 23 := by
  have hf : vsC4.filterMap id = [20, 21, 19, 22, 23, 24, 25, 26, 27] := by decide
  have h := (claim_C4 vsC4 0 []).2.1 (by rw [hf]; decide)
  rw [h, hf]
  norm_num

theorem listMin_eq_none_iff (l : List ℚ) : listMin l = none ↔ l = [] := by
  cases l with
  | nil => simp [listMin]
  | cons x xs =>
    unfold listMin
    cases listMin xs <;> simp

theorem listMax_eq_none_iff (l : List ℚ) : listMax l = none ↔ l = [] := by
  cases l with
  | nil => simp [listMax]
  | cons x xs =>
    unfold listMax
    cases listMax xs <;> simp

theorem listMin_le {l : List ℚ} {m x : ℚ} (hm : listMin l = some m) (hx : x ∈ l) : m ≤ x := by
  induction l generalizing m with
  | nil => cases hx
  | cons y ys ih =>
    unfold listMin at hm
    rcases List.mem_cons.1 hx with hxy | hxs
    · subst hxy
      cases hys : listMin ys <;> rw [hys] at hm <;> injection hm with hm2 <;> subst hm2
      · exact le_refl x
      · exact min_le_left _ _
    · cases hys : listMin ys <;> rw [hys] at hm <;> injection hm with hm2 <;> subst hm2
      · exact absurd ((listMin_eq_none_iff ys).1 hys ▸ hxs) (List.not_mem_nil x)
      · exact le_trans (min_le_right _ _) (ih hys hxs)

theorem le_listMax {l : List ℚ} {M x : ℚ} (hM : listMax l = some M) (hx : x ∈ l) : x ≤ M := by
  induction l generalizing M with
  | nil => cases hx
  | cons y ys ih =>
    unfold listMax at hM
    rcases List.mem_cons.1 hx with hxy | hxs
    · subst hxy
      cases hys : listMax ys <;> rw [hys] at hM <;> injection hM with hM2 <;> subst hM2
      · exact le_refl x
      · exact le_max_left _ _
    · cases hys : listMax ys <;> rw [hys] at hM <;> injection hM with hM2 <;> subst hM2
      · exact absurd ((listMax_eq_none_iff ys).1 hys ▸ hxs) (List.not_mem_nil x)
      · exact le_trans (ih hys hxs) (le_max_right _ _)

/-- Every valid value of a polygon's cells is a valid value of the whole
raster. -/
theorem poly_sub_raster {p : Polygon} {r : Raster} {x : ℚ}
    (hx : x ∈ polyValidValues p r) : x ∈ rasterValidValues r := by
  unfold polyValidValues at hx
  unfold rasterValidValues rasterValues
  rw [List.mem_filterMap] at hx
  rw [List.mem_filterMap]
  obtain ⟨c, hc, hcx⟩ := hx
  refine ⟨c.2, List.mem_map_of_mem Prod.snd hc, ?_⟩
  by_cases hp : p c.1
  · rwa [if_pos hp] at hcx
  · rw [if_neg hp] at hcx
    cases hcx

theorem mul_length_le_sum {l : List ℚ} {a : ℚ} (h : ∀ x ∈ l, a ≤ x) :
    a * l.length ≤ l.sum := by
  induction l with
  | nil => simp
  | cons y ys ih =>
    have h1 : a ≤ y := h y (List.mem_cons_self y ys)
    have h2 : a * ys.length ≤ ys.sum := ih (fun x hx => h x (List.mem_cons_of_mem y hx))
    simp only [List.length_cons, List.sum_cons]
    push_cast
    nlinarith

theorem sum_le_mul_length {l : List ℚ} {b : ℚ} (h : ∀ x ∈ l, x ≤ b) :
    l.sum ≤ b * l.length := by
  induction l with
  | nil => simp
  | cons y ys ih =>
    have h1 : y ≤ b := h y (List.mem_cons_self y ys)
    have h2 : ys.sum ≤ b * ys.length := ih (fun x hx => h x (List.mem_cons_of_mem y hx))
    simp only [List.length_cons, List.sum_cons]
    push_cast
    nlinarith

/-- C2: the zonal aggregator yields the missing marker exactly when the
polygon holds zero valid cells (no cell center inside it, or every such
cell nodata or non-finite) — never zero, never an error — and otherwise
its mean lies within `[min, max]` of the raster's valid values; the
missing marker then survives the downstream scale-and-filter stage
untouched. -/
theorem claim_C2 (p : Polygon) (r : Raster) (s : ℚ) :
    (zonalMean p r = none ↔ polyValidValues p r = []) ∧
    (∀ v, zonalMean p r = some v →
      ∃ m M, listMin (rasterValidValues r) = some m ∧
        listMax (rasterValidValues r) = some M ∧ m ≤ v ∧ v ≤ M) ∧
    processValue s none = none := by
  refine ⟨?_, fun v hv => ?_, rfl⟩
  · by_cases h : polyValidValues p r = [] <;> simp [zonalMean, h]
  · unfold zonalMean at hv
    by_cases h : polyValidValues p r = []
    · rw [if_pos h] at hv
      cases hv
    · rw [if_neg h] at hv
      injection hv with hv2
      obtain ⟨x0, hx0⟩ : ∃ x, x ∈ polyValidValues p r := by
        cases hl : polyValidValues p r with
        | nil => exact absurd hl h
        | cons a l => exact ⟨a, hl ▸ List.mem_cons_self a l⟩
      have hx0r : x0 ∈ rasterValidValues r := poly_sub_raster hx0
      obtain ⟨m, hm⟩ : ∃ m, listMin (rasterValidValues r) = some m := by
        cases hmin : listMin (rasterValidValues r) with
        | none =>
          exact absurd ((listMin_eq_none_iff _).1 hmin ▸ hx0r) (List.not_mem_nil x0)
        | some m => exact ⟨m, rfl⟩
      obtain ⟨M, hM⟩ : ∃ M, listMax (rasterValidValues r) = some M := by
        cases hmax : listMax (rasterValidValues r) with
        | none =>
          exact absurd ((listMax_eq_none_iff _).1 hmax ▸ hx0r) (List.not_mem_nil x0)
        | some M => exact ⟨M, rfl⟩
      have hlow : ∀ x ∈ polyValidValues p r, m ≤ x :=
        fun x hx => listMin_le hm (poly_sub_raster hx)
      have hup : ∀ x ∈ polyValidValues p r, x ≤ M :=
        fun x hx => le_listMax hM (poly_sub_raster hx)
      have hn : (0 : ℚ) < ((polyValidValues p r).length : ℚ) := by
        have := List.length_pos.2 h
        exact_mod_cast this
      refine ⟨m, M, hm, hM, ?_, ?_⟩
      · rw [← hv2, le_div_iff₀ hn]
        exact mul_length_le_sum hlow
      · rw [← hv2, div_le_iff₀ hn]
        exact sum_le_mul_length hup

/-- A polygon containing every cell center, used to instantiate C2. -/
def polyAll : Polygon := fun _ => true

/-- The four-cell raster of the spec's scenario: values 10, 12, 14, 16,
no nodata sentinel. -/
def rEx : Raster :=
  ⟨[((0, 0), .val 10), ((1, 0), .val 12), ((2, 0), .val 14), ((3, 0), .val 16)], none⟩

/-- Witness for C2: on the concrete raster `rEx` the zonal mean over a
covering polygon is 13, which lies between the raster's min (10) and max
(16). -/
theorem claim_C2_witness :
    ∃ m M, listMin (rasterValidValues rEx) = some m ∧
      listMax (rasterValidValues rEx) = some M ∧ m ≤ 13 ∧ 13 ≤ M := by
  apply (claim_C2 polyAll rEx 1).2.1 13
  have h : polyValidValues polyAll rEx = [10, 12, 14, 16] := by decide
  unfold zonalMean
  rw [h, if_neg (List.cons_ne_nil _ _)]
  norm_num


theorem scalesUsed_some (s : ℚ) (rs : List Raster) :
    scalesUsed (some s) rs = List.replicate rs.length s := by
  induction rs with
  | nil => rfl
  | cons r rs ih => simp [scalesUsed, List.replicate_succ, ih]

/-- The monthly table is exactly the zip of the per-month scale sequence
with the rasters: within each raster one single scale is applied to
every municipality's zonal mean. -/
theorem statsMensaisGo_eq (polys : List Polygon) (esc : Option ℚ) (rasters : List Raster) :
    statsMensaisGo polys esc rasters =
      List.zipWith (fun sc ra => linha sc polys ra) (scalesUsed esc rasters) rasters := by
  induction rasters generalizing esc with
  | nil => cases esc <;> rfl
  | cons r rs ih =>
    cases esc with
    | none => simp [statsMensaisGo, scalesUsed, ih]
    | some s => simp [statsMensaisGo, scalesUsed, ih]

/-- C1 (amended): with an explicit `--escala` the same supplied factor
is used for every month and detection never runs; without it the factor
is detected once, from the first raster's own cell array, and that same
factor is reused for every subsequent month; within each raster the
factor is applied uniformly to every zonal mean (each row of the monthly
table is `linha` with one single scale). -/
theorem claim_C1 (polys : List Polygon) (s : ℚ) (escala : Option ℚ)
    (r : Raster) (rs : List Raster) (rasters : List Raster) :
    (scalesUsed (some s) rasters = List.replicate rasters.length s) ∧
    (scalesUsed none (r :: rs) =
      List.replicate (rs.length + 1) (detect_scale_from_array (rasterValues r) r.nodata)) ∧
    (stats_mensais escala polys rasters =
      List.zipWith (fun sc ra => linha sc polys ra) (scalesUsed escala rasters) rasters) :=
  ⟨scalesUsed_some s rasters,
   by simp [scalesUsed, scalesUsed_some, List.replicate_succ],
   statsMensaisGo_eq polys escala rasters⟩

/-- A one-cell raster whose maximum valid value is 75 (detected scale 1.0). -/
def rC1a : Raster := ⟨[((0, 0), .val 75)], none⟩

/-- A one-cell raster whose maximum valid value is 95 (detected scale 0.1). -/
def rC1b : Raster := ⟨[((0, 0), .val 95)], none⟩

/-- Counterexample to C1 as stated: running without an explicit factor
on the rasters `[rC1a, rC1b]`, the factor actually used for the second
month is the one detected from the FIRST month's array (1.0), not the
one detection would give on the second month's own array (0.1). -/
theorem claim_C1_cex :
    (scalesUsed none [rC1a, rC1b]).getD 1 0 ≠
      detect_scale_from_array (rasterValues rC1b) rC1b.nodata := by
  have h1 : (scalesUsed none [rC1a, rC1b]).getD 1 0 = 1 := by decide
  have h2 : detect_scale_from_array (rasterValues rC1b) rC1b.nodata = 1/10 := by
    have hmax : listMax ((rasterValues rC1b).filterMap (isValidCell rC1b.nodata))
        = some 95 := by decide
    unfold detect_scale_from_array
    rw [hmax]
    norm_num
  rw [h1, h2]
  norm_num

/-- C8: an empty raster set, a raster count different from 12 in
full-year mode, and a failed month lookup under `--mes` are each fatal:
the pipeline stops with an error raised during raster selection, before
any zonal aggregation, and produces no output at all. -/
theorem claim_C8 (args : Args) (polys : List Polygon) (files : List RFile) :
    (files = [] → ∃ e, runPipeline args polys files = .error e) ∧
    (args.mes = none → files.length ≠ 12 → ∃ e, runPipeline args polys files = .error e) ∧
    (∀ m e0, args.mes = some m → pick_raster_for_month files m = Except.error e0 →
      ∃ e, runPipeline args polys files = .error e) := by
  refine ⟨fun h => ?_, fun hm hn => ?_, fun m e0 hm hp => ?_⟩
  · unfold runPipeline
    cases hL : applyLimite args.limite polys with
    | error e => exact ⟨e, rfl⟩
    | ok ps =>
      subst h
      simp [selectRasters]
  · unfold runPipeline
    cases hL : applyLimite args.limite polys with
    | error e => exact ⟨e, rfl⟩
    | ok ps =>
      rw [hm]
      by_cases h0 : files.length = 0 <;> simp [selectRasters, h0, hn]
  · unfold runPipeline
    cases hL : applyLimite args.limite polys with
    | error e => exact ⟨e, rfl⟩
    | ok ps =>
      rw [hm]
      by_cases h0 : files.length = 0 <;> simp [selectRasters, h0, hp]

/-- A raster file whose name matches no month pattern. -/
def fC8 : RFile := ⟨"a.tif".toList, ⟨[], none⟩⟩

/-- Witness for C8: the three fatal configurations on concrete inputs —
no rasters at all; one raster in full-year mode; `--mes 5` with a single
unmatchable file. -/
theorem claim_C8_witness :
    (∃ e, runPipeline ⟨none, none, none⟩ [] [] = .error e) ∧
    (∃ e, runPipeline ⟨none, none, none⟩ [] [fC8] = .error e) ∧
    (∃ e, runPipeline ⟨some 5, none, none⟩ [] [fC8] = .error e) :=
  ⟨(claim_C8 ⟨none, none, none⟩ [] []).1 rfl,
   (claim_C8 ⟨none, none, none⟩ [] [fC8]).2.1 rfl (by decide),
   (claim_C8 ⟨some 5, none, none⟩ [] [fC8]).2.2 5 "Não encontrei raster para o mês." rfl
     (by rfl)⟩

/-- C9: the outlier selection keeps exactly the values strictly below
`Q1 - 1.5*IQR` or strictly above `Q3 + 1.5*IQR`, with `Q1`/`Q3` the
25th/75th linear-interpolation percentiles of the non-missing values,
and returns them sorted ascending by value; on the spec's scenario
`[10, 12, 14, 16, 18, 20, 100]` the outlier set is exactly `{100}`. -/
theorem claim_C9 (vals : List ℚ) :
    (∀ v, v ∈ outlierValues vals ↔ v ∈ vals ∧
      (v < quantile vals (1/4)
            - 3/2 * (quantile vals (3/4) - quantile vals (1/4)) ∨
       v > quantile vals (3/4)
            + 3/2 * (quantile vals (3/4) - quantile vals (1/4)))) ∧
    List.Sorted (· ≤ ·) (outlierValues vals) ∧
    outlierValues [10, 12, 14, 16, 18, 20, 100] = [100] := by
  refine ⟨fun v => ?_, ?_, ?_⟩
  · unfold outlierValues
    rw [(List.perm_insertionSort _ _).mem_iff, List.mem_filter]
    simp [lim_inf, lim_sup]
  · exact List.sorted_insertionSort _ _
  · have hs : ([10,12,14,16,18,20,100] : List ℚ).insertionSort (· ≤ ·)
        = [10,12,14,16,18,20,100] := by decide
    have h13 : quantile [10,12,14,16,18,20,100] (1/4) = 13 := by
      unfold quantile
      rw [hs]
      unfold quantileSorted
      dsimp only
      have hfl : Rat.floor ((1/4 : ℚ)
          * (((([10,12,14,16,18,20,100] : List ℚ).length) : ℚ) - 1)) = 1 := by
        norm_num [Rat.floor]
      rw [hfl]
      rw [show ([10,12,14,16,18,20,100] : List ℚ).getD (Int.toNat 1) 0 = 12 from by decide]
      rw [show ([10,12,14,16,18,20,100] : List ℚ).getD (Int.toNat 1 + 1) 12 = 14 from by decide]
      norm_num
    have h19 : quantile [10,12,14,16,18,20,100] (3/4) = 19 := by
      unfold quantile
      rw [hs]
      unfold quantileSorted
      dsimp only
      have hfl : Rat.floor ((3/4 : ℚ)
          * (((([10,12,14,16,18,20,100] : List ℚ).length) : ℚ) - 1)) = 4 := by
        norm_num [Rat.floor]
      rw [hfl]
      rw [show ([10,12,14,16,18,20,100] : List ℚ).getD (Int.toNat 4) 0 = 18 from by decide]
      rw [show ([10,12,14,16,18,20,100] : List ℚ).getD (Int.toNat 4 + 1) 18 = 20 from by decide]
      norm_num
    have hInf : lim_inf [10,12,14,16,18,20,100] = 4 := by
      unfold lim_inf
      rw [h13, h19]
      norm_num
    have hSup : lim_sup [10,12,14,16,18,20,100] = 28 := by
      unfold lim_sup
      rw [h13, h19]
      norm_num
    unfold outlierValues
    rw [hInf, hSup]
    decide

end Geopib
